import Mathlib

/-!
# Verification of the `fat_volume_id` parsing/formatting core

Shallow embedding of the crate's data model and algorithms:
fixed-width volume identifiers (`VolumeId32`, `VolumeId64`), their
integer/byte conversions, the ASCII-hex formatters, the fast parsers and
the error-diagnostics scan.  Machine integers (`u8`, `u32`, `u64`, `usize`)
are modelled as `Nat` with explicit `% 256` / bound hypotheses where the
width matters.  Fallible paths (out-of-bounds indexing, checked
subtraction standing for panicking `usize` arithmetic) return `Option`.
-/

namespace FatVolumeId

/-- A `[u8; 4]` array, as stored by `VolumeId32`. -/
structure Bytes4 where
  b0 : Nat
  b1 : Nat
  b2 : Nat
  b3 : Nat
deriving DecidableEq, Repr

/-- All four entries are in `u8` range. -/
def Bytes4.InRange (b : Bytes4) : Prop :=
  b.b0 < 256 ∧ b.b1 < 256 ∧ b.b2 < 256 ∧ b.b3 < 256

/-- A `[u8; 8]` array, as stored by `VolumeId64`. -/
structure Bytes8 where
  c0 : Nat
  c1 : Nat
  c2 : Nat
  c3 : Nat
  c4 : Nat
  c5 : Nat
  c6 : Nat
  c7 : Nat
deriving DecidableEq, Repr

/-- All eight entries are in `u8` range. -/
def Bytes8.InRange (b : Bytes8) : Prop :=
  b.c0 < 256 ∧ b.c1 < 256 ∧ b.c2 < 256 ∧ b.c3 < 256 ∧
  b.c4 < 256 ∧ b.c5 < 256 ∧ b.c6 < 256 ∧ b.c7 < 256

/-- `struct VolumeId32([u8; 4])` (src/id32.rs). -/
structure VolumeId32 where
  bytes : Bytes4
deriving DecidableEq, Repr

/-- `struct VolumeId64([u8; 8])` (src/id64.rs). -/
structure VolumeId64 where
  bytes : Bytes8
deriving DecidableEq, Repr

namespace VolumeId32

/-- `VolumeId32::nil`: all zeros. -/
def nil : VolumeId32 := ⟨⟨0, 0, 0, 0⟩⟩

/-- `VolumeId32::max`: all `0xff`. -/
def max : VolumeId32 := ⟨⟨0xff, 0xff, 0xff, 0xff⟩⟩

/-- `VolumeId32::from_bytes`: stores the bytes verbatim. -/
def from_bytes (b : Bytes4) : VolumeId32 := ⟨b⟩

/-- `VolumeId32::from_bytes_be`: stores `[b[3], b[2], b[1], b[0]]`. -/
def from_bytes_be (b : Bytes4) : VolumeId32 := ⟨⟨b.b3, b.b2, b.b1, b.b0⟩⟩

/-- `VolumeId32::as_bytes`. -/
def as_bytes (v : VolumeId32) : Bytes4 := v.bytes

/-- `VolumeId32::into_bytes`. -/
def into_bytes (v : VolumeId32) : Bytes4 := v.bytes

/-- `VolumeId32::to_bytes_be`: `[b[3], b[2], b[1], b[0]]` of the stored bytes. -/
def to_bytes_be (v : VolumeId32) : Bytes4 :=
  ⟨v.bytes.b3, v.bytes.b2, v.bytes.b1, v.bytes.b0⟩

/-- `VolumeId32::as_u32`: `u32::from_le_bytes` of the stored bytes. -/
def as_u32 (v : VolumeId32) : Nat :=
  v.bytes.b0 + 256 * v.bytes.b1 + 65536 * v.bytes.b2 + 16777216 * v.bytes.b3

/-- `VolumeId32::as_u32_be`: `u32::from_be_bytes` of the stored bytes. -/
def as_u32_be (v : VolumeId32) : Nat :=
  16777216 * v.bytes.b0 + 65536 * v.bytes.b1 + 256 * v.bytes.b2 + v.bytes.b3

/-- `VolumeId32::from_u32`: `from_bytes(v.to_le_bytes())` for a `u32` value. -/
def from_u32 (v : Nat) : VolumeId32 :=
  from_bytes ⟨v % 256, v / 256 % 256, v / 65536 % 256, v / 16777216 % 256⟩

/-- `VolumeId32::from_u32_be`: `from_bytes(v.to_be_bytes())` for a `u32` value. -/
def from_u32_be (v : Nat) : VolumeId32 :=
  from_bytes ⟨v / 16777216 % 256, v / 65536 % 256, v / 256 % 256, v % 256⟩

/-- `VolumeId32::is_nil`: `self.as_u32() == u32::MIN`. -/
def is_nil (v : VolumeId32) : Bool := v.as_u32 == 0

/-- `VolumeId32::is_max`: `self.as_u32() == u32::MAX`. -/
def is_max (v : VolumeId32) : Bool := v.as_u32 == 4294967295

end VolumeId32

namespace VolumeId64

/-- `VolumeId64::nil`: all zeros. -/
def nil : VolumeId64 := ⟨⟨0, 0, 0, 0, 0, 0, 0, 0⟩⟩

/-- `VolumeId64::max`: all `0xff`. -/
def max : VolumeId64 := ⟨⟨0xff, 0xff, 0xff, 0xff, 0xff, 0xff, 0xff, 0xff⟩⟩

/-- `VolumeId64::from_bytes`: stores the bytes verbatim. -/
def from_bytes (b : Bytes8) : VolumeId64 := ⟨b⟩

/-- `VolumeId64::from_bytes_be`: stores `[b[7], …, b[0]]`. -/
def from_bytes_be (b : Bytes8) : VolumeId64 :=
  ⟨⟨b.c7, b.c6, b.c5, b.c4, b.c3, b.c2, b.c1, b.c0⟩⟩

/-- `VolumeId64::as_bytes`. -/
def as_bytes (v : VolumeId64) : Bytes8 := v.bytes

/-- `VolumeId64::into_bytes`. -/
def into_bytes (v : VolumeId64) : Bytes8 := v.bytes

/-- `VolumeId64::to_bytes_be`: the stored bytes reversed. -/
def to_bytes_be (v : VolumeId64) : Bytes8 :=
  ⟨v.bytes.c7, v.bytes.c6, v.bytes.c5, v.bytes.c4,
   v.bytes.c3, v.bytes.c2, v.bytes.c1, v.bytes.c0⟩

/-- `VolumeId64::as_u64`: `u64::from_le_bytes` of the stored bytes. -/
def as_u64 (v : VolumeId64) : Nat :=
  v.bytes.c0 + 256 * v.bytes.c1 + 65536 * v.bytes.c2 + 16777216 * v.bytes.c3 +
  4294967296 * v.bytes.c4 + 1099511627776 * v.bytes.c5 +
  281474976710656 * v.bytes.c6 + 72057594037927936 * v.bytes.c7

/-- `VolumeId64::as_u64_be`: `u64::from_be_bytes` of the stored bytes. -/
def as_u64_be (v : VolumeId64) : Nat :=
  72057594037927936 * v.bytes.c0 + 281474976710656 * v.bytes.c1 +
  1099511627776 * v.bytes.c2 + 4294967296 * v.bytes.c3 +
  16777216 * v.bytes.c4 + 65536 * v.bytes.c5 + 256 * v.bytes.c6 + v.bytes.c7

/-- `VolumeId64::from_u64`: `from_bytes(v.to_le_bytes())` for a `u64` value. -/
def from_u64 (v : Nat) : VolumeId64 :=
  from_bytes ⟨v % 256, v / 256 % 256, v / 65536 % 256, v / 16777216 % 256,
    v / 4294967296 % 256, v / 1099511627776 % 256,
    v / 281474976710656 % 256, v / 72057594037927936 % 256⟩

/-- `VolumeId64::from_u64_be`: `from_bytes(v.to_be_bytes())` for a `u64` value. -/
def from_u64_be (v : Nat) : VolumeId64 :=
  from_bytes ⟨v / 72057594037927936 % 256, v / 281474976710656 % 256,
    v / 1099511627776 % 256, v / 4294967296 % 256,
    v / 16777216 % 256, v / 65536 % 256, v / 256 % 256, v % 256⟩

/-- `VolumeId64::is_nil`: `self.as_u64() == u64::MIN`. -/
def is_nil (v : VolumeId64) : Bool := v.as_u64 == 0

/-- `VolumeId64::is_max`: `self.as_u64() == u64::MAX`. -/
def is_max (v : VolumeId64) : Bool := v.as_u64 == 18446744073709551615

end VolumeId64

/-!
## Codec tables and fast parsers (src/id32/parser.rs, src/id64/parser.rs)

Input byte slices are modelled as `List Nat` (entries are `u8` values).
-/

/-- The 256-entry `HEX_TABLE`, as the function its build loop tabulates:
`'0'..='9' ↦ 0..9`, `'a'..='f' ↦ 10..15`, `'A'..='F' ↦ 10..15`, else the
sentinel `0xff`. -/
def HEX_TABLE (b : Nat) : Nat :=
  if 48 ≤ b ∧ b ≤ 57 then b - 48
  else if 97 ≤ b ∧ b ≤ 102 then b - 97 + 10
  else if 65 ≤ b ∧ b ≤ 70 then b - 65 + 10
  else 0xff

/-- The 256-entry `SHL4_TABLE`: `i.wrapping_shl(4)` on `u8`. -/
def SHL4_TABLE (b : Nat) : Nat := b * 16 % 256

/-- One decoded byte from a hex pair: `SHL4_TABLE[h1] | h2` with
`h1`/`h2` the `HEX_TABLE` lookups of the two characters. -/
def hexPair (hi lo : Nat) : Nat :=
  SHL4_TABLE (HEX_TABLE hi) ||| HEX_TABLE lo

/-- `parse_simpleid32` (src/id32/parser.rs): length check, then four
iterations of the decode loop, each failing if `h1 | h2 == 0xff`. -/
def parse_simpleid32 (s : List Nat) : Option Bytes4 :=
  match s with
  | [a0, a1, a2, a3, a4, a5, a6, a7] =>
    if HEX_TABLE a0 ||| HEX_TABLE a1 = 0xff then none
    else if HEX_TABLE a2 ||| HEX_TABLE a3 = 0xff then none
    else if HEX_TABLE a4 ||| HEX_TABLE a5 = 0xff then none
    else if HEX_TABLE a6 ||| HEX_TABLE a7 = 0xff then none
    else some ⟨hexPair a0 a1, hexPair a2 a3, hexPair a4 a5, hexPair a6 a7⟩
  | _ => none

/-- `parse_hyphenatedid32` (src/id32/parser.rs): length check, then the
hyphen check at index 4 (before any hex lookup), then the two groups at
positions 0 and 5, each failing if `h1 | h2 | h3 | h4 == 0xff`. -/
def parse_hyphenatedid32 (s : List Nat) : Option Bytes4 :=
  match s with
  | [a0, a1, a2, a3, a4, a5, a6, a7, a8] =>
    if a4 = 45 then
      if HEX_TABLE a0 ||| HEX_TABLE a1 ||| HEX_TABLE a2 ||| HEX_TABLE a3 = 0xff then
        none
      else if HEX_TABLE a5 ||| HEX_TABLE a6 ||| HEX_TABLE a7 ||| HEX_TABLE a8 = 0xff then
        none
      else some ⟨hexPair a0 a1, hexPair a2 a3, hexPair a5 a6, hexPair a7 a8⟩
    else none
  | _ => none

/-- `parse_simpleid64` (src/id64/parser.rs): length check, then eight
iterations of the decode loop. -/
def parse_simpleid64 (s : List Nat) : Option Bytes8 :=
  match s with
  | [a0, a1, a2, a3, a4, a5, a6, a7, a8, a9, a10, a11, a12, a13, a14, a15] =>
    if HEX_TABLE a0 ||| HEX_TABLE a1 = 0xff then none
    else if HEX_TABLE a2 ||| HEX_TABLE a3 = 0xff then none
    else if HEX_TABLE a4 ||| HEX_TABLE a5 = 0xff then none
    else if HEX_TABLE a6 ||| HEX_TABLE a7 = 0xff then none
    else if HEX_TABLE a8 ||| HEX_TABLE a9 = 0xff then none
    else if HEX_TABLE a10 ||| HEX_TABLE a11 = 0xff then none
    else if HEX_TABLE a12 ||| HEX_TABLE a13 = 0xff then none
    else if HEX_TABLE a14 ||| HEX_TABLE a15 = 0xff then none
    else some ⟨hexPair a0 a1, hexPair a2 a3, hexPair a4 a5, hexPair a6 a7,
      hexPair a8 a9, hexPair a10 a11, hexPair a12 a13, hexPair a14 a15⟩
  | _ => none

/-- `VolumeId32::try_parse_ascii`: dispatch on the total length
(8 → simple, 9 → hyphenated, otherwise immediate failure). -/
def VolumeId32.try_parse_ascii (s : List Nat) : Option VolumeId32 :=
  if s.length = 8 then (parse_simpleid32 s).map VolumeId32.from_bytes
  else if s.length = 9 then (parse_hyphenatedid32 s).map VolumeId32.from_bytes
  else none

/-- `VolumeId64::try_parse_ascii`: dispatch on the total length
(16 → simple, otherwise immediate failure). -/
def VolumeId64.try_parse_ascii (s : List Nat) : Option VolumeId64 :=
  if s.length = 16 then (parse_simpleid64 s).map VolumeId64.from_bytes
  else none

/-- `u8::is_ascii_hexdigit`. -/
def isAsciiHexdigit (b : Nat) : Bool :=
  if 48 ≤ b ∧ b ≤ 57 then true
  else if 65 ≤ b ∧ b ≤ 70 then true
  else if 97 ≤ b ∧ b ≤ 102 then true
  else false

/-!
## Formatters (src/id32/fmt.rs, src/id64/fmt.rs)

The encode path is embedded panic-aware: array indexing returns `Option`
(`none` = out-of-bounds panic), so the buggy loop bound in
`format_simpleid32` (`while i < 16` over a 4-byte source) is visible.
-/

/-- The `UPPER` hex alphabet table. -/
def UPPER : List Nat :=
  [48, 49, 50, 51, 52, 53, 54, 55, 56, 57, 65, 66, 67, 68, 69, 70]

/-- The `LOWER` hex alphabet table. -/
def LOWER : List Nat :=
  [48, 49, 50, 51, 52, 53, 54, 55, 56, 57, 97, 98, 99, 100, 101, 102]

/-- Checked array indexing into a `[u8; 4]` (`none` = bounds panic). -/
def bytes4Idx (b : Bytes4) : Nat → Option Nat
  | 0 => some b.b0
  | 1 => some b.b1
  | 2 => some b.b2
  | 3 => some b.b3
  | _ => none

/-- Checked array indexing into a `[u8; 8]` (`none` = bounds panic). -/
def bytes8Idx (b : Bytes8) : Nat → Option Nat
  | 0 => some b.c0
  | 1 => some b.c1
  | 2 => some b.c2
  | 3 => some b.c3
  | 4 => some b.c4
  | 5 => some b.c5
  | 6 => some b.c6
  | 7 => some b.c7
  | _ => none

/-- Checked in-place write `dst[i] = v` (`none` = bounds panic). -/
def listSet? (l : List Nat) (i v : Nat) : Option (List Nat) :=
  if i < l.length then some (l.set i v) else none

/-- `format_simpleid32` (src/id32/fmt.rs): `dst = [0; 8]`, then the loop
`while i < 16 { let x = src[i]; dst[i*2] = lut[x >> 4]; dst[i*2+1] = lut[x & 0x0f] }`
over the 4-byte source `src`. -/
def format_simpleid32 (src : Bytes4) (upper : Bool) : Option (List Nat) :=
  let lut := if upper then UPPER else LOWER
  (List.range 16).foldlM (fun dst i => do
    let x ← bytes4Idx src i
    let hi ← lut[x / 16]?
    let dst ← listSet? dst (i * 2) hi
    let lo ← lut[x % 16]?
    listSet? dst (i * 2 + 1) lo) (List.replicate 8 0)

/-- `format_hyphenatedid32` (src/id32/fmt.rs): groups `[(0,4), (5,8)]`;
within a group, `j` steps by two writing `lut[x >> 4]`, `lut[x & 0x0f]`
while `i` walks the source bytes; the hyphen is written at the end of the
first group (`group_idx < 1`).  The two-iteration outer loop is unrolled. -/
def format_hyphenatedid32 (src : Bytes4) (upper : Bool) : Option (List Nat) :=
  let lut := if upper then UPPER else LOWER
  let body := fun (st : Nat × List Nat) (j : Nat) => do
    let (i, dst) := st
    let x ← bytes4Idx src i
    let hi ← lut[x / 16]?
    let dst ← listSet? dst j hi
    let lo ← lut[x % 16]?
    let dst ← listSet? dst (j + 1) lo
    pure (i + 1, dst)
  do
  -- group_idx = 0: (start, end) = (0, 4), then dst[4] = b'-'
  let st ← [0, 2].foldlM body (0, List.replicate 9 0)
  let dst ← listSet? st.2 4 45
  -- group_idx = 1: (start, end) = (5, 8)
  let st ← [5, 7].foldlM body (st.1, dst)
  pure st.2

/-- `format_simpleid64` (src/id64/fmt.rs): the loop bound is
`SimpleId64::LENGTH / 2 = 8`, matching the 8-byte source. -/
def format_simpleid64 (src : Bytes8) (upper : Bool) : Option (List Nat) :=
  let lut := if upper then UPPER else LOWER
  (List.range (16 / 2)).foldlM (fun dst i => do
    let x ← bytes8Idx src i
    let hi ← lut[x / 16]?
    let dst ← listSet? dst (i * 2) hi
    let lo ← lut[x % 16]?
    listSet? dst (i * 2 + 1) lo) (List.replicate 16 0)

/-- Outcome of an `encode_lower`/`encode_upper` call. -/
inductive EncodeOutcome where
  /-- The `assert!(buffer.len() >= LENGTH)` precondition fired. -/
  | assertFail
  /-- A panic inside the formatting routine itself. -/
  | panicked
  /-- The encoded ASCII text written into the buffer prefix. -/
  | ok (out : List Nat)
deriving DecidableEq, Repr

/-- `SimpleId32` formatter wrapper (src/id32/fmt.rs). -/
structure SimpleId32 where
  toVolumeId32 : VolumeId32
deriving DecidableEq, Repr

/-- `HyphenatedId32` formatter wrapper (src/id32/fmt.rs). -/
structure HyphenatedId32 where
  toVolumeId32 : VolumeId32
deriving DecidableEq, Repr

/-- `SimpleId64` formatter wrapper (src/id64/fmt.rs). -/
structure SimpleId64 where
  toVolumeId64 : VolumeId64
deriving DecidableEq, Repr

/-- `SimpleId32::LENGTH`. -/
def SimpleId32.LENGTH : Nat := 8

/-- `HyphenatedId32::LENGTH`. -/
def HyphenatedId32.LENGTH : Nat := 9

/-- `SimpleId64::LENGTH`. -/
def SimpleId64.LENGTH : Nat := 16

/-- `SimpleId32::_encode`: the buffer-length assert, then
`format_simpleid32` written into `buffer[..LENGTH]`. -/
def SimpleId32.encodeImpl (src : Bytes4) (buffer : List Nat) (upper : Bool) :
    EncodeOutcome :=
  if ¬ SimpleId32.LENGTH ≤ buffer.length then .assertFail
  else
    match format_simpleid32 src upper with
    | some out => .ok out
    | none => .panicked

/-- `SimpleId32::encode_lower`. -/
def SimpleId32.encode_lower (x : SimpleId32) (buffer : List Nat) : EncodeOutcome :=
  SimpleId32.encodeImpl x.toVolumeId32.as_bytes buffer false

/-- `SimpleId32::encode_upper`. -/
def SimpleId32.encode_upper (x : SimpleId32) (buffer : List Nat) : EncodeOutcome :=
  SimpleId32.encodeImpl x.toVolumeId32.as_bytes buffer true

/-- `HyphenatedId32::_encode`. -/
def HyphenatedId32.encodeImpl (src : Bytes4) (buffer : List Nat) (upper : Bool) :
    EncodeOutcome :=
  if ¬ HyphenatedId32.LENGTH ≤ buffer.length then .assertFail
  else
    match format_hyphenatedid32 src upper with
    | some out => .ok out
    | none => .panicked

/-- `HyphenatedId32::encode_lower`. -/
def HyphenatedId32.encode_lower (x : HyphenatedId32) (buffer : List Nat) :
    EncodeOutcome :=
  HyphenatedId32.encodeImpl x.toVolumeId32.as_bytes buffer false

/-- `HyphenatedId32::encode_upper`. -/
def HyphenatedId32.encode_upper (x : HyphenatedId32) (buffer : List Nat) :
    EncodeOutcome :=
  HyphenatedId32.encodeImpl x.toVolumeId32.as_bytes buffer true

/-- `SimpleId64::_encode`. -/
def SimpleId64.encodeImpl (src : Bytes8) (buffer : List Nat) (upper : Bool) :
    EncodeOutcome :=
  if ¬ SimpleId64.LENGTH ≤ buffer.length then .assertFail
  else
    match format_simpleid64 src upper with
    | some out => .ok out
    | none => .panicked

/-- `SimpleId64::encode_lower`. -/
def SimpleId64.encode_lower (x : SimpleId64) (buffer : List Nat) : EncodeOutcome :=
  SimpleId64.encodeImpl x.toVolumeId64.as_bytes buffer false

/-- `SimpleId64::encode_upper`. -/
def SimpleId64.encode_upper (x : SimpleId64) (buffer : List Nat) : EncodeOutcome :=
  SimpleId64.encodeImpl x.toVolumeId64.as_bytes buffer true

/-- Spec side (§4.2 of the claim set): byte-reversal of a `u32` value. -/
def bswap32 (v : Nat) : Nat :=
  16777216 * (v % 256) + 65536 * (v / 256 % 256) + 256 * (v / 65536 % 256) +
    v / 16777216 % 256

/-- Spec side: byte-reversal of a `u64` value. -/
def bswap64 (v : Nat) : Nat :=
  72057594037927936 * (v % 256) + 281474976710656 * (v / 256 % 256) +
  1099511627776 * (v / 65536 % 256) + 4294967296 * (v / 16777216 % 256) +
  16777216 * (v / 4294967296 % 256) + 65536 * (v / 1099511627776 % 256) +
  256 * (v / 281474976710656 % 256) + v / 72057594037927936 % 256

/-!
## Diagnostics (src/id32/error.rs, src/id64/error.rs)

`into_err` re-scans the rejected bytes.  The embedding is panic-aware:
`usize` subtraction and array writes are checked (`none` = panic), so the
"never panics on malformed input" property is a real statement.
-/

/-- Checked `usize` subtraction (`none` = overflow panic). -/
def checkedSub (a b : Nat) : Option Nat :=
  if b ≤ a then some (a - b) else none

/-- `id32::error::ErrorKind` (src/id32/error.rs). -/
inductive ErrorKind32 where
  | parseChar (character : Char) (index : Nat)
  | parseSimpleLength (len : Nat)
  | parseByteLength (len : Nat)
  | parseGroupCount (count : Nat)
  | parseGroupLength (group len index : Nat)
  | parseInvalidUTF8
  | parseOther
deriving DecidableEq, Repr

/-- `id64::error::ErrorKind` (src/id64/error.rs): no group variants. -/
inductive ErrorKind64 where
  | parseChar (character : Char) (index : Nat)
  | parseSimpleLength (len : Nat)
  | parseByteLength (len : Nat)
  | parseInvalidUTF8
  | parseOther
deriving DecidableEq, Repr

/-- Number of bytes of the UTF-8 encoding of a scalar value, as stepped by
`str::char_indices`. -/
def utf8Len (c : Char) : Nat :=
  if c.toNat < 0x80 then 1
  else if c.toNat < 0x800 then 2
  else if c.toNat < 0x10000 then 3
  else 4

/-- `std::str::from_utf8`: strict UTF-8 validation/decoding (rejects
continuation errors, overlong forms, surrogates and values above
`0x10FFFF`), yielding the sequence of scalar values. -/
def decodeUtf8 : List Nat → Option (List Char)
  | [] => some []
  | b :: rest =>
    if b < 0x80 then (decodeUtf8 rest).map (Char.ofNat b :: ·)
    else if 0xC2 ≤ b ∧ b ≤ 0xDF then
      match rest with
      | b1 :: rest1 =>
        if 0x80 ≤ b1 ∧ b1 ≤ 0xBF then
          (decodeUtf8 rest1).map (Char.ofNat ((b - 0xC0) * 64 + (b1 - 0x80)) :: ·)
        else none
      | [] => none
    else if 0xE0 ≤ b ∧ b ≤ 0xEF then
      match rest with
      | b1 :: b2 :: rest2 =>
        let lo1 := if b = 0xE0 then 0xA0 else 0x80
        let hi1 := if b = 0xED then 0x9F else 0xBF
        if (lo1 ≤ b1 ∧ b1 ≤ hi1) ∧ 0x80 ≤ b2 ∧ b2 ≤ 0xBF then
          (decodeUtf8 rest2).map
            (Char.ofNat ((b - 0xE0) * 4096 + (b1 - 0x80) * 64 + (b2 - 0x80)) :: ·)
        else none
      | _ => none
    else if 0xF0 ≤ b ∧ b ≤ 0xF4 then
      match rest with
      | b1 :: b2 :: b3 :: rest3 =>
        let lo1 := if b = 0xF0 then 0x90 else 0x80
        let hi1 := if b = 0xF4 then 0x8F else 0xBF
        if (lo1 ≤ b1 ∧ b1 ≤ hi1) ∧ (0x80 ≤ b2 ∧ b2 ≤ 0xBF) ∧ 0x80 ≤ b3 ∧ b3 ≤ 0xBF then
          (decodeUtf8 rest3).map
            (Char.ofNat ((b - 0xF0) * 262144 + (b1 - 0x80) * 4096 +
              (b2 - 0x80) * 64 + (b3 - 0x80)) :: ·)
        else none
      | _ => none
    else none

/-- Result of the diagnostics scan loop over `char_indices` (32-bit):
either the early `ParseChar` return, or the state after the full pass
(`index` past the end = total byte length, hyphen count, `group_bounds`). -/
inductive ScanOut32 where
  | char (character : Char) (index : Nat)
  | done (len hyphens : Nat) (groupBounds : List Nat)
deriving DecidableEq, Repr

/-- The 32-bit `into_err` scan loop (src/id32/error.rs lines 58-79):
walks `char_indices` tracking the byte index, the hyphen count and
`group_bounds` (a `[usize; 4]`, written at `group_bounds[hyphen_count]`
for the first hyphen).  The multibyte test is
`character as u32 - character as u8 as u32 > 0`. -/
def scan32 : List Char → Nat → Nat → List Nat → Option ScanOut32
  | [], idx, hc, gb => some (.done idx hc gb)
  | c :: rest, idx, hc, gb =>
    let cv := c.toNat
    let byte := cv % 256
    match checkedSub cv byte with
    | none => none
    | some diff =>
      if 0 < diff then some (.char c (idx + 1))
      else if byte = 45 then
        match (if hc < 1 then listSet? gb hc idx else some gb) with
        | none => none
        | some gb1 => scan32 rest (idx + utf8Len c) (hc + 1) gb1
      else if ¬ isAsciiHexdigit byte then some (.char (Char.ofNat byte) (idx + 1))
      else scan32 rest (idx + utf8Len c) hc gb

/-- The classification step of the 32-bit `into_err` after a completed
scan (src/id32/error.rs lines 81-113), with `BLOCK_STARTS = [0, 5]` and
the one-iteration boundary loop `for i in 0..1` unrolled. -/
def intoErr32Chars (cs : List Char) : Option ErrorKind32 :=
  match scan32 cs 0 0 [0, 0, 0, 0] with
  | none => none
  | some (.char c i) => some (.parseChar c i)
  | some (.done len hc gb) =>
    if hc = 0 then some (.parseSimpleLength len)
    else if hc ≠ 1 then some (.parseGroupCount (hc + 1))
    else
      match gb[0]? with
      | none => none
      | some g0 =>
        if g0 ≠ 4 then some (.parseGroupLength 0 (g0 - 0) 1)
        else
          match checkedSub len 5 with
          | none => none
          | some l => some (.parseGroupLength 1 l 6)

/-- `InvalidVolumeId32::into_err`: UTF-8 validation first, then the scan
and classification. -/
def InvalidVolumeId32.into_err (bytes : List Nat) : Option ErrorKind32 :=
  match decodeUtf8 bytes with
  | none => some .parseInvalidUTF8
  | some cs => intoErr32Chars cs

/-- Result of the 64-bit diagnostics scan loop. -/
inductive ScanOut64 where
  | char (character : Char) (index : Nat)
  | done (len : Nat)
deriving DecidableEq, Repr

/-- The 64-bit `into_err` scan loop (src/id64/error.rs lines 43-58):
hyphens receive no special treatment. -/
def scan64 : List Char → Nat → Option ScanOut64
  | [], idx => some (.done idx)
  | c :: rest, idx =>
    let cv := c.toNat
    let byte := cv % 256
    match checkedSub cv byte with
    | none => none
    | some diff =>
      if 0 < diff then some (.char c (idx + 1))
      else if ¬ isAsciiHexdigit byte then some (.char (Char.ofNat byte) (idx + 1))
      else scan64 rest (idx + utf8Len c)

/-- The classification step of the 64-bit `into_err`. -/
def intoErr64Chars (cs : List Char) : Option ErrorKind64 :=
  match scan64 cs 0 with
  | none => none
  | some (.char c i) => some (.parseChar c i)
  | some (.done len) => some (.parseSimpleLength len)

/-- `InvalidVolumeId64::into_err`. -/
def InvalidVolumeId64.into_err (bytes : List Nat) : Option ErrorKind64 :=
  match decodeUtf8 bytes with
  | none => some .parseInvalidUTF8
  | some cs => intoErr64Chars cs

/-!
## Claim-side (spec-worded) classification for the diagnostics claims
-/

/-- Spec side: a character that is an ASCII hex digit. -/
def isClaimHex (c : Char) : Bool := isAsciiHexdigit c.toNat

/-- Spec side: the first character (0-based position) that is neither an
ASCII hex digit nor a hyphen. -/
def firstBad32 : List Char → Option (Nat × Char)
  | [] => none
  | c :: rest =>
    if isClaimHex c ∨ c = '-' then (firstBad32 rest).map (fun p => (p.1 + 1, p.2))
    else some (0, c)

/-- Spec side: the first character (0-based position) that is not an
ASCII hex digit (64-bit rule: hyphens are not special). -/
def firstNonHex : List Char → Option (Nat × Char)
  | [] => none
  | c :: rest =>
    if isClaimHex c then (firstNonHex rest).map (fun p => (p.1 + 1, p.2))
    else some (0, c)

/-- Spec side, from the words of claim C2: the classification rule for a
rejected 32-bit input (as a character sequence). -/
def claimClassify32 (cs : List Char) : ErrorKind32 :=
  match firstBad32 cs with
  | some (i, c) => .parseChar c (i + 1)
  | none =>
    let hc := cs.count '-'
    if hc = 0 then .parseSimpleLength cs.length
    else if hc = 1 then
      let g0 := cs.findIdx (· == '-')
      if g0 ≠ 4 then .parseGroupLength 0 g0 1
      else .parseGroupLength 1 (cs.length - 5) 6
    else .parseGroupCount (hc + 1)

/-- Spec side, from the words of claim C10: the classification rule for a
rejected 64-bit input — the first non-hex-digit character (hyphens are
not special), else a simple-length failure. -/
def claimClassify64 (cs : List Char) : ErrorKind64 :=
  match firstNonHex cs with
  | some (i, c) => .parseChar c (i + 1)
  | none => .parseSimpleLength cs.length

/-!
## Helper lemmas
-/

set_option maxRecDepth 4000

theorem hexTable_cases (b : Nat) : HEX_TABLE b < 16 ∨ HEX_TABLE b = 255 := by
  unfold HEX_TABLE
  split_ifs <;> omega

theorem hexTable_lt_256 (b : Nat) : HEX_TABLE b < 256 := by
  rcases hexTable_cases b with h | h <;> omega

theorem hexTable_lt_16 {b : Nat} (h : isAsciiHexdigit b = true) :
    HEX_TABLE b < 16 := by
  unfold isAsciiHexdigit at h
  unfold HEX_TABLE
  split_ifs at h ⊢ <;> omega

theorem hexTable_eq_255 {b : Nat} (h : isAsciiHexdigit b = false) :
    HEX_TABLE b = 255 := by
  unfold isAsciiHexdigit at h
  unfold HEX_TABLE
  split_ifs at h ⊢ <;> omega

theorem lor_lt_16 {x y : Nat} (hx : x < 16) (hy : y < 16) : x ||| y < 16 := by
  have h : Nat.bitwise or x y < 2 ^ 4 := Nat.bitwise_lt (by omega) (by omega)
  simpa [HOr.hOr, OrOp.or, Nat.lor] using h

theorem lor_lt_256 {x y : Nat} (hx : x < 256) (hy : y < 256) : x ||| y < 256 := by
  have h : Nat.bitwise or x y < 2 ^ 8 := Nat.bitwise_lt (by omega) (by omega)
  simpa [HOr.hOr, OrOp.or, Nat.lor] using h

theorem lor_255_left : ∀ y < 256, 255 ||| y = 255 := by decide

theorem lor_255_right : ∀ x < 256, x ||| 255 = 255 := by decide

theorem pairBad_iff (a b : Nat) :
    HEX_TABLE a ||| HEX_TABLE b = 255 ↔
      ¬(isAsciiHexdigit a = true ∧ isAsciiHexdigit b = true) := by
  constructor
  · intro h hab
    have ha := hexTable_lt_16 hab.1
    have hb := hexTable_lt_16 hab.2
    have := lor_lt_16 ha hb
    omega
  · intro h
    cases ha : isAsciiHexdigit a
    · rw [hexTable_eq_255 ha]
      exact lor_255_left _ (hexTable_lt_256 b)
    · cases hb : isAsciiHexdigit b
      · rw [hexTable_eq_255 hb]
        exact lor_255_right _ (hexTable_lt_256 a)
      · exact absurd ⟨ha, hb⟩ h

theorem quadBad_iff (a b c d : Nat) :
    HEX_TABLE a ||| HEX_TABLE b ||| HEX_TABLE c ||| HEX_TABLE d = 255 ↔
      ¬(isAsciiHexdigit a = true ∧ isAsciiHexdigit b = true ∧
        isAsciiHexdigit c = true ∧ isAsciiHexdigit d = true) := by
  constructor
  · intro h habcd
    have ha := hexTable_lt_16 habcd.1
    have hb := hexTable_lt_16 habcd.2.1
    have hc := hexTable_lt_16 habcd.2.2.1
    have hd := hexTable_lt_16 habcd.2.2.2
    have h1 := lor_lt_16 ha hb
    have h2 := lor_lt_16 h1 hc
    have h3 := lor_lt_16 h2 hd
    omega
  · intro h
    have l1 := lor_lt_256 (hexTable_lt_256 a) (hexTable_lt_256 b)
    have l2 := lor_lt_256 l1 (hexTable_lt_256 c)
    cases ha : isAsciiHexdigit a
    · rw [hexTable_eq_255 ha, lor_255_left _ (hexTable_lt_256 b),
        lor_255_left _ (hexTable_lt_256 c), lor_255_left _ (hexTable_lt_256 d)]
    · cases hb : isAsciiHexdigit b
      · rw [hexTable_eq_255 hb, lor_255_right _ (hexTable_lt_256 a),
          lor_255_left _ (hexTable_lt_256 c), lor_255_left _ (hexTable_lt_256 d)]
      · cases hc : isAsciiHexdigit c
        · rw [hexTable_eq_255 hc, lor_255_right _ l1,
            lor_255_left _ (hexTable_lt_256 d)]
        · cases hd : isAsciiHexdigit d
          · rw [hexTable_eq_255 hd, lor_255_right _ l2]
          · exact absurd ⟨ha, hb, hc, hd⟩ h

theorem parse_simpleid32_isSome_iff (a0 a1 a2 a3 a4 a5 a6 a7 : Nat) :
    (parse_simpleid32 [a0, a1, a2, a3, a4, a5, a6, a7]).isSome = true ↔
      (isAsciiHexdigit a0 = true ∧ isAsciiHexdigit a1 = true ∧
       isAsciiHexdigit a2 = true ∧ isAsciiHexdigit a3 = true ∧
       isAsciiHexdigit a4 = true ∧ isAsciiHexdigit a5 = true ∧
       isAsciiHexdigit a6 = true ∧ isAsciiHexdigit a7 = true) := by
  simp only [parse_simpleid32]
  split_ifs with h1 h2 h3 h4 <;>
    simp only [Option.isSome_none, Option.isSome_some, Bool.false_eq_true,
      false_iff, true_iff] <;>
    rw [pairBad_iff] at * <;> tauto

theorem parse_hyphenatedid32_isSome_iff (a0 a1 a2 a3 a5 a6 a7 a8 : Nat) :
    (parse_hyphenatedid32 [a0, a1, a2, a3, 45, a5, a6, a7, a8]).isSome = true ↔
      (isAsciiHexdigit a0 = true ∧ isAsciiHexdigit a1 = true ∧
       isAsciiHexdigit a2 = true ∧ isAsciiHexdigit a3 = true ∧
       isAsciiHexdigit a5 = true ∧ isAsciiHexdigit a6 = true ∧
       isAsciiHexdigit a7 = true ∧ isAsciiHexdigit a8 = true) := by
  simp only [parse_hyphenatedid32, if_pos rfl]
  split_ifs with h1 h2 <;>
    simp only [Option.isSome_none, Option.isSome_some, Bool.false_eq_true,
      false_iff, true_iff] <;>
    rw [quadBad_iff] at * <;> tauto

theorem pairGood {a b : Nat} (ha : isAsciiHexdigit a = true)
    (hb : isAsciiHexdigit b = true) : ¬(HEX_TABLE a ||| HEX_TABLE b = 255) := by
  have := lor_lt_16 (hexTable_lt_16 ha) (hexTable_lt_16 hb)
  omega

theorem quadGood {a b c d : Nat} (ha : isAsciiHexdigit a = true)
    (hb : isAsciiHexdigit b = true) (hc : isAsciiHexdigit c = true)
    (hd : isAsciiHexdigit d = true) :
    ¬(HEX_TABLE a ||| HEX_TABLE b ||| HEX_TABLE c ||| HEX_TABLE d = 255) := by
  have h1 := lor_lt_16 (hexTable_lt_16 ha) (hexTable_lt_16 hb)
  have h2 := lor_lt_16 h1 (hexTable_lt_16 hc)
  have h3 := lor_lt_16 h2 (hexTable_lt_16 hd)
  omega

theorem parse_hyphenated_eq_simple (a0 a1 a2 a3 a5 a6 a7 a8 : Nat) :
    parse_hyphenatedid32 [a0, a1, a2, a3, 45, a5, a6, a7, a8] =
      parse_simpleid32 [a0, a1, a2, a3, a5, a6, a7, a8] := by
  by_cases hall : isAsciiHexdigit a0 = true ∧ isAsciiHexdigit a1 = true ∧
      isAsciiHexdigit a2 = true ∧ isAsciiHexdigit a3 = true ∧
      isAsciiHexdigit a5 = true ∧ isAsciiHexdigit a6 = true ∧
      isAsciiHexdigit a7 = true ∧ isAsciiHexdigit a8 = true
  · obtain ⟨h0, h1, h2, h3, h5, h6, h7, h8⟩ := hall
    simp only [parse_hyphenatedid32, parse_simpleid32, eq_self_iff_true, if_true]
    rw [if_neg (quadGood h0 h1 h2 h3), if_neg (quadGood h5 h6 h7 h8),
      if_neg (pairGood h0 h1), if_neg (pairGood h2 h3),
      if_neg (pairGood h5 h6), if_neg (pairGood h7 h8)]
  · have hL : parse_hyphenatedid32 [a0, a1, a2, a3, 45, a5, a6, a7, a8] = none := by
      rcases hv : parse_hyphenatedid32 [a0, a1, a2, a3, 45, a5, a6, a7, a8] with _ | v
      · rfl
      · exact absurd ((parse_hyphenatedid32_isSome_iff a0 a1 a2 a3 a5 a6 a7 a8).mp
          (by rw [hv]; rfl)) hall
    have hR : parse_simpleid32 [a0, a1, a2, a3, a5, a6, a7, a8] = none := by
      rcases hv : parse_simpleid32 [a0, a1, a2, a3, a5, a6, a7, a8] with _ | v
      · rfl
      · exact absurd ((parse_simpleid32_isSome_iff a0 a1 a2 a3 a5 a6 a7 a8).mp
          (by rw [hv]; rfl)) hall
    rw [hL, hR]

theorem isAsciiHexdigit_lt_128 {b : Nat} (h : isAsciiHexdigit b = true) :
    b < 128 := by
  unfold isAsciiHexdigit at h
  split_ifs at h <;> omega

theorem utf8Len_ascii {c : Char} (h : c.toNat < 128) : utf8Len c = 1 := by
  unfold utf8Len
  rw [if_pos (by omega)]

theorem char_toNat_eq_45_iff (c : Char) : c.toNat = 45 ↔ c = '-' := by
  constructor
  · intro h
    have hc := Char.ofNat_toNat c
    rw [h] at hc
    have h45 : Char.ofNat 45 = '-' := by decide
    rw [h45] at hc
    exact hc.symm
  · intro h
    subst h
    decide

theorem checkedSub_mod (a : Nat) : checkedSub a (a % 256) = some (a - a % 256) := by
  unfold checkedSub
  rw [if_pos (Nat.mod_le a 256)]

theorem scan32_cons_multibyte {c : Char} (h : 256 ≤ c.toNat)
    (rest : List Char) (idx hc : Nat) (gb : List Nat) :
    scan32 (c :: rest) idx hc gb = some (.char c (idx + 1)) := by
  simp only [scan32, checkedSub_mod]
  rw [if_pos (by omega)]

theorem scan32_cons_ascii {c : Char} (h : c.toNat < 256)
    (rest : List Char) (idx hc : Nat) (gb : List Nat) :
    scan32 (c :: rest) idx hc gb =
      if c = '-' then
        match (if hc < 1 then listSet? gb hc idx else some gb) with
        | none => none
        | some gb1 => scan32 rest (idx + utf8Len c) (hc + 1) gb1
      else if ¬ isAsciiHexdigit c.toNat then some (.char c (idx + 1))
      else scan32 rest (idx + utf8Len c) hc gb := by
  simp only [scan32, checkedSub_mod]
  rw [if_neg (show ¬ 0 < c.toNat - c.toNat % 256 by omega)]
  simp only [Nat.mod_eq_of_lt h, char_toNat_eq_45_iff, Char.ofNat_toNat]

theorem scan64_cons_multibyte {c : Char} (h : 256 ≤ c.toNat)
    (rest : List Char) (idx : Nat) :
    scan64 (c :: rest) idx = some (.char c (idx + 1)) := by
  simp only [scan64, checkedSub_mod]
  rw [if_pos (by omega)]

theorem scan64_cons_ascii {c : Char} (h : c.toNat < 256)
    (rest : List Char) (idx : Nat) :
    scan64 (c :: rest) idx =
      if ¬ isAsciiHexdigit c.toNat then some (.char c (idx + 1))
      else scan64 rest (idx + utf8Len c) := by
  simp only [scan64, checkedSub_mod]
  rw [if_neg (show ¬ 0 < c.toNat - c.toNat % 256 by omega)]
  simp only [Nat.mod_eq_of_lt h, Char.ofNat_toNat]

theorem scan32_char (cs : List Char) :
    ∀ (idx hc : Nat) (gb : List Nat), 0 < gb.length →
      ∀ p : Nat × Char,
        firstBad32 cs = some p →
        scan32 cs idx hc gb = some (.char p.2 (idx + p.1 + 1)) := by
  induction cs with
  | nil =>
    intro idx hc gb hlen p hp
    simp [firstBad32] at hp
  | cons c rest ih =>
    intro idx hc gb hlen p hp
    simp only [firstBad32] at hp
    by_cases hok : isClaimHex c = true ∨ c = '-'
    · rw [if_pos hok] at hp
      rcases hq : firstBad32 rest with _ | q
      · rw [hq] at hp
        simp at hp
      · rw [hq] at hp
        simp only [Option.map_some', Option.some.injEq] at hp
        have hlt : c.toNat < 128 := by
          rcases hok with hx | hy
          · exact isAsciiHexdigit_lt_128 hx
          · rw [hy]; decide
        rw [scan32_cons_ascii (by omega) rest idx hc gb]
        subst hp
        by_cases hhy : c = '-'
        · rw [if_pos hhy, utf8Len_ascii hlt]
          by_cases hc0 : hc < 1
          · rw [if_pos hc0]
            have hset : listSet? gb hc idx = some (gb.set hc idx) := by
              unfold listSet?
              rw [if_pos (by omega)]
            rw [hset]
            dsimp only
            rw [ih (idx + 1) (hc + 1) (gb.set hc idx) (by simpa using hlen) q hq]
            simp only [Option.some.injEq, ScanOut32.char.injEq]
            exact ⟨trivial, by omega⟩
          · rw [if_neg hc0]
            dsimp only
            rw [ih (idx + 1) (hc + 1) gb hlen q hq]
            simp only [Option.some.injEq, ScanOut32.char.injEq]
            exact ⟨trivial, by omega⟩
        · have hx : isAsciiHexdigit c.toNat = true := by
            rcases hok with hx | hy
            · exact hx
            · exact absurd hy hhy
          rw [if_neg hhy, if_neg (by rw [hx]; simp), utf8Len_ascii hlt]
          rw [ih (idx + 1) hc gb hlen q hq]
          simp only [Option.some.injEq, ScanOut32.char.injEq]
          exact ⟨trivial, by omega⟩
    · rw [if_neg hok] at hp
      simp only [Option.some.injEq] at hp
      subst hp
      by_cases hbig : 256 ≤ c.toNat
      · rw [scan32_cons_multibyte hbig]
        rfl
      · rw [scan32_cons_ascii (by omega) rest idx hc gb]
        have hhy : ¬ c = '-' := fun h => hok (Or.inr h)
        have hx : isAsciiHexdigit c.toNat = false := by
          cases hxx : isAsciiHexdigit c.toNat
          · rfl
          · exact absurd (Or.inl hxx) hok
        rw [if_neg hhy, if_pos (by rw [hx]; simp)]
        rfl

theorem scan32_done (cs : List Char) :
    ∀ (idx hc g0 : Nat) (grest : List Nat),
      firstBad32 cs = none →
      scan32 cs idx hc (g0 :: grest) =
        some (.done (idx + cs.length) (hc + cs.count '-')
          ((if hc = 0 ∧ 0 < cs.count '-' then idx + cs.findIdx (· == '-') else g0)
            :: grest)) := by
  induction cs with
  | nil =>
    intro idx hc g0 grest _
    simp [scan32]
  | cons c rest ih =>
    intro idx hc g0 grest hnone
    simp only [firstBad32] at hnone
    by_cases hok : isClaimHex c = true ∨ c = '-'
    · rw [if_pos hok] at hnone
      have hrest : firstBad32 rest = none := by
        rcases h : firstBad32 rest with _ | q
        · rfl
        · rw [h] at hnone
          simp at hnone
      have hlt : c.toNat < 128 := by
        rcases hok with hx | hy
        · exact isAsciiHexdigit_lt_128 hx
        · rw [hy]; decide
      rw [scan32_cons_ascii (by omega) rest idx hc (g0 :: grest)]
      by_cases hhy : c = '-'
      · subst hhy
        rw [if_pos rfl, utf8Len_ascii hlt]
        by_cases hc0 : hc < 1
        · have h0 : hc = 0 := by omega
          subst h0
          rw [if_pos hc0]
          have hset : listSet? (g0 :: grest) 0 idx = some (idx :: grest) := by
            unfold listSet?
            rw [if_pos (by simp)]
            rfl
          rw [hset]
          dsimp only
          rw [ih (idx + 1) 1 idx grest hrest]
          simp [List.count_cons, List.findIdx_cons]
          omega
        · rw [if_neg hc0]
          dsimp only
          rw [ih (idx + 1) (hc + 1) g0 grest hrest]
          have hne : ¬ hc = 0 := by omega
          simp [List.count_cons, List.findIdx_cons, hne]
          omega
      · have hx : isAsciiHexdigit c.toNat = true := by
          rcases hok with hx | hy
          · exact hx
          · exact absurd hy hhy
        rw [if_neg hhy, if_neg (by rw [hx]; simp), utf8Len_ascii hlt]
        rw [ih (idx + 1) hc g0 grest hrest]
        have hbeq : (c == '-') = false := by
          simp [hhy]
        simp [List.count_cons, List.findIdx_cons, hbeq]
        refine ⟨by omega, ?_⟩
        by_cases hcond : hc = 0 ∧ '-' ∈ rest
        · rw [if_pos hcond, if_pos hcond]
          omega
        · rw [if_neg hcond, if_neg hcond]
    · rw [if_neg hok] at hnone
      simp at hnone

theorem scan64_char (cs : List Char) :
    ∀ (idx : Nat) (p : Nat × Char),
      firstNonHex cs = some p →
      scan64 cs idx = some (.char p.2 (idx + p.1 + 1)) := by
  induction cs with
  | nil =>
    intro idx p hp
    simp [firstNonHex] at hp
  | cons c rest ih =>
    intro idx p hp
    simp only [firstNonHex] at hp
    by_cases hok : isClaimHex c = true
    · rw [if_pos hok] at hp
      rcases hq : firstNonHex rest with _ | q
      · rw [hq] at hp
        simp at hp
      · rw [hq] at hp
        simp only [Option.map_some', Option.some.injEq] at hp
        have hlt : c.toNat < 128 := isAsciiHexdigit_lt_128 hok
        rw [scan64_cons_ascii (by omega) rest idx]
        subst hp
        have hok2 : isAsciiHexdigit c.toNat = true := hok
        rw [if_neg (by rw [hok2]; simp), utf8Len_ascii hlt]
        rw [ih (idx + 1) q hq]
        simp only [Option.some.injEq, ScanOut64.char.injEq]
        exact ⟨trivial, by omega⟩
    · rw [if_neg hok] at hp
      simp only [Option.some.injEq] at hp
      subst hp
      by_cases hbig : 256 ≤ c.toNat
      · rw [scan64_cons_multibyte hbig]
        rfl
      · rw [scan64_cons_ascii (by omega) rest idx]
        have hx : isAsciiHexdigit c.toNat = false := by
          cases hxx : isAsciiHexdigit c.toNat
          · rfl
          · exact absurd hxx hok
        rw [if_pos (by rw [hx]; simp)]
        rfl

theorem scan64_done (cs : List Char) :
    ∀ idx : Nat,
      firstNonHex cs = none →
      scan64 cs idx = some (.done (idx + cs.length)) := by
  induction cs with
  | nil =>
    intro idx _
    simp [scan64]
  | cons c rest ih =>
    intro idx hnone
    simp only [firstNonHex] at hnone
    by_cases hok : isClaimHex c = true
    · rw [if_pos hok] at hnone
      have hrest : firstNonHex rest = none := by
        rcases h : firstNonHex rest with _ | q
        · rfl
        · rw [h] at hnone
          simp at hnone
      have hlt : c.toNat < 128 := isAsciiHexdigit_lt_128 hok
      rw [scan64_cons_ascii (by omega) rest idx]
      have hok2 : isAsciiHexdigit c.toNat = true := hok
      rw [if_neg (by rw [hok2]; simp), utf8Len_ascii hlt]
      rw [ih (idx + 1) hrest]
      simp only [List.length_cons, Option.some.injEq, ScanOut64.done.injEq]
      omega
    · rw [if_neg hok] at hnone
      simp at hnone

theorem intoErr32Chars_eq (cs : List Char) :
    intoErr32Chars cs = some (claimClassify32 cs) := by
  rcases hfb : firstBad32 cs with _ | p
  · have hs := scan32_done cs 0 0 0 [0, 0, 0] hfb
    simp only [Nat.zero_add, eq_self_iff_true, true_and] at hs
    simp only [intoErr32Chars, hs, claimClassify32, hfb]
    by_cases h0 : cs.count '-' = 0
    · rw [if_pos h0, if_pos h0]
    · rw [if_neg h0, if_neg h0]
      by_cases h1 : cs.count '-' = 1
      · rw [if_neg (by omega), if_pos h1]
        have hpos : (0 : Nat) < cs.count '-' := by omega
        simp only [if_pos hpos, List.getElem?_cons_zero]
        by_cases h4 : cs.findIdx (· == '-') = 4
        · rw [if_neg (by omega), if_neg (by omega)]
          have hmem : '-' ∈ cs := List.count_pos_iff.mp hpos
          have hidx : cs.findIdx (· == '-') < cs.length :=
            List.findIdx_lt_length_of_exists ⟨'-', hmem, by simp⟩
          have hlen5 : 5 ≤ cs.length := by omega
          unfold checkedSub
          rw [if_pos hlen5]
        · rw [if_pos h4, if_pos h4, Nat.sub_zero]
      · rw [if_pos (by omega), if_neg h1]
  · obtain ⟨i, c⟩ := p
    have hs := scan32_char cs 0 0 [0, 0, 0, 0] (by simp) (i, c) hfb
    simp only [Nat.zero_add] at hs
    simp only [intoErr32Chars, hs, claimClassify32, hfb]

theorem intoErr64Chars_eq (cs : List Char) :
    intoErr64Chars cs = some (claimClassify64 cs) := by
  rcases hfn : firstNonHex cs with _ | p
  · have hs := scan64_done cs 0 hfn
    simp only [Nat.zero_add] at hs
    simp only [intoErr64Chars, hs, claimClassify64, hfn]
  · obtain ⟨i, c⟩ := p
    have hs := scan64_char cs 0 (i, c) hfn
    simp only [Nat.zero_add] at hs
    simp only [intoErr64Chars, hs, claimClassify64, hfn]

/-!
## Claim theorems
-/

/-- C2: for every byte string rejected by the 32-bit fast parser that is
valid UTF-8, the diagnostics call classifies it by the claimed rule
(first invalid character with its 1-based position; else hyphen count 0
→ simple-length error with the total length; hyphen count 1 →
group-length error at the first mismatching boundary, else the final
group; other hyphen counts → group-count error carrying count + 1).  In
particular `""` → `SimpleLength{0}`, `"!"` → `InvalidCharacter{'!',1}`,
`"F91-CEB24"` → `GroupLength{group 0, len 3, position 1}`. -/
theorem c2_diagnostics :
    (∀ (bytes : List Nat) (cs : List Char),
      decodeUtf8 bytes = some cs →
      VolumeId32.try_parse_ascii bytes = none →
      InvalidVolumeId32.into_err bytes = some (claimClassify32 cs)) ∧
    InvalidVolumeId32.into_err [] = some (.parseSimpleLength 0) ∧
    InvalidVolumeId32.into_err [33] = some (.parseChar '!' 1) ∧
    InvalidVolumeId32.into_err [70, 57, 49, 45, 67, 69, 66, 50, 52] =
      some (.parseGroupLength 0 3 1) := by
  refine ⟨?_, by decide, by decide, by decide⟩
  intro bytes cs hdec _
  simp only [InvalidVolumeId32.into_err, hdec]
  exact intoErr32Chars_eq cs

/-- Witness for C2 at the rejected input `"!"`. -/
theorem c2_diagnostics_witness :
    InvalidVolumeId32.into_err [33] = some (claimClassify32 ['!']) :=
  c2_diagnostics.1 [33] ['!'] (by decide) (by decide)

/-- C9: for every byte slice (arbitrary content, any length), both
diagnostics conversions terminate with exactly one classification; no
checked operation inside (array index, `usize` subtraction) fails, so
they never panic. -/
theorem c9_diagnostics_total :
    ∀ bytes : List Nat,
      (InvalidVolumeId32.into_err bytes).isSome = true ∧
      (InvalidVolumeId64.into_err bytes).isSome = true := by
  intro bytes
  constructor
  · rcases h : decodeUtf8 bytes with _ | cs <;>
      simp [InvalidVolumeId32.into_err, h, intoErr32Chars_eq]
  · rcases h : decodeUtf8 bytes with _ | cs <;>
      simp [InvalidVolumeId64.into_err, h, intoErr64Chars_eq]

/-- C10: the 64-bit diagnostics never produce a group-count or
group-length classification (every result is an invalid-character,
simple-length or invalid-UTF-8 error), and for a rejected valid-UTF-8
input whose first non-hex-digit character is `'-'`, the classification
is `InvalidCharacter` naming `'-'` and its 1-based position. -/
theorem c10_id64_hyphen_invalid_char :
    (∀ (bytes : List Nat) (e : ErrorKind64),
      InvalidVolumeId64.into_err bytes = some e →
      (∃ c i, e = .parseChar c i) ∨ (∃ n, e = .parseSimpleLength n) ∨
        e = .parseInvalidUTF8) ∧
    (∀ (bytes : List Nat) (cs : List Char) (i : Nat),
      decodeUtf8 bytes = some cs →
      VolumeId64.try_parse_ascii bytes = none →
      firstNonHex cs = some (i, '-') →
      InvalidVolumeId64.into_err bytes = some (.parseChar '-' (i + 1))) := by
  constructor
  · intro bytes e he
    unfold InvalidVolumeId64.into_err at he
    rcases h : decodeUtf8 bytes with _ | cs
    · rw [h] at he
      simp only [Option.some.injEq] at he
      right; right
      exact he.symm
    · rw [h] at he
      dsimp only at he
      rw [intoErr64Chars_eq cs] at he
      simp only [Option.some.injEq] at he
      subst he
      unfold claimClassify64
      rcases firstNonHex cs with _ | ⟨i, c⟩
      · right; left
        exact ⟨cs.length, rfl⟩
      · left
        exact ⟨c, i + 1, rfl⟩
  · intro bytes cs i hdec _ hfn
    simp only [InvalidVolumeId64.into_err, hdec, intoErr64Chars_eq cs,
      claimClassify64, hfn]

/-- Witness for C10 at the rejected input `"-0"`. -/
theorem c10_id64_hyphen_invalid_char_witness :
    InvalidVolumeId64.into_err [45, 48] = some (.parseChar '-' 1) :=
  c10_id64_hyphen_invalid_char.2 [45, 48] ['-', '0'] 0 (by decide) (by decide)
    (by decide)

/-- C3: for every 9-byte input to the 32-bit hyphenated decode, a
non-hyphen at index 4 fails immediately; with the hyphen present the
decode succeeds iff the remaining 8 bytes are all ASCII hex digits, and
it decodes the two 4-character groups exactly as the Simple decode of
those 8 hex characters (first textual pair → first stored byte). -/
theorem c3_hyphenated_decode :
    ∀ a0 a1 a2 a3 a4 a5 a6 a7 a8 : Nat,
      (a4 ≠ 45 → parse_hyphenatedid32 [a0, a1, a2, a3, a4, a5, a6, a7, a8] = none) ∧
      (a4 = 45 →
        ((parse_hyphenatedid32 [a0, a1, a2, a3, a4, a5, a6, a7, a8]).isSome = true ↔
          (isAsciiHexdigit a0 = true ∧ isAsciiHexdigit a1 = true ∧
           isAsciiHexdigit a2 = true ∧ isAsciiHexdigit a3 = true ∧
           isAsciiHexdigit a5 = true ∧ isAsciiHexdigit a6 = true ∧
           isAsciiHexdigit a7 = true ∧ isAsciiHexdigit a8 = true)) ∧
        parse_hyphenatedid32 [a0, a1, a2, a3, a4, a5, a6, a7, a8] =
          parse_simpleid32 [a0, a1, a2, a3, a5, a6, a7, a8]) := by
  intro a0 a1 a2 a3 a4 a5 a6 a7 a8
  refine ⟨fun h => ?_, fun h => ?_⟩
  · simp only [parse_hyphenatedid32]
    rw [if_neg h]
  · subst h
    exact ⟨parse_hyphenatedid32_isSome_iff a0 a1 a2 a3 a5 a6 a7 a8,
      parse_hyphenated_eq_simple a0 a1 a2 a3 a5 a6 a7 a8⟩

/-- Witness for C3 at the concrete input `"6ddc-f6da"`. -/
theorem c3_hyphenated_decode_witness :
    parse_hyphenatedid32 [54, 100, 100, 99, 45, 102, 54, 100, 97] =
      parse_simpleid32 [54, 100, 100, 99, 102, 54, 100, 97] ∧
    parse_hyphenatedid32 [54, 100, 100, 99, 88, 102, 54, 100, 97] = none :=
  ⟨((c3_hyphenated_decode 54 100 100 99 45 102 54 100 97).2 rfl).2,
    (c3_hyphenated_decode 54 100 100 99 88 102 54 100 97).1 (by decide)⟩

/-- C4: the fast parsers dispatch purely on total input length: the
32-bit parser attempts the Simple decode iff the length is 8 and the
Hyphenated decode iff the length is 9, failing immediately otherwise;
the 64-bit parser attempts the Simple decode iff the length is 16 and
fails immediately otherwise (no hyphenated layout). -/
theorem c4_length_dispatch :
    ∀ s : List Nat,
      (s.length = 8 →
        VolumeId32.try_parse_ascii s = (parse_simpleid32 s).map VolumeId32.from_bytes) ∧
      (s.length = 9 →
        VolumeId32.try_parse_ascii s =
          (parse_hyphenatedid32 s).map VolumeId32.from_bytes) ∧
      (s.length ≠ 8 → s.length ≠ 9 → VolumeId32.try_parse_ascii s = none) ∧
      (s.length = 16 →
        VolumeId64.try_parse_ascii s = (parse_simpleid64 s).map VolumeId64.from_bytes) ∧
      (s.length ≠ 16 → VolumeId64.try_parse_ascii s = none) := by
  intro s
  refine ⟨fun h8 => ?_, fun h9 => ?_, fun h8 h9 => ?_, fun h16 => ?_, fun h16 => ?_⟩ <;>
    simp only [VolumeId32.try_parse_ascii, VolumeId64.try_parse_ascii]
  · rw [if_pos h8]
  · rw [if_neg (by omega), if_pos h9]
  · rw [if_neg h8, if_neg h9]
  · rw [if_pos h16]
  · rw [if_neg h16]

/-- Witness for C4 at concrete inputs of lengths 1, 8 and 16. -/
theorem c4_length_dispatch_witness :
    VolumeId32.try_parse_ascii [33] = none ∧
    VolumeId64.try_parse_ascii [33] = none ∧
    VolumeId32.try_parse_ascii [54, 100, 100, 99, 102, 54, 100, 97] =
      (parse_simpleid32 [54, 100, 100, 99, 102, 54, 100, 97]).map
        VolumeId32.from_bytes :=
  ⟨(c4_length_dispatch [33]).2.2.1 (by decide) (by decide),
   (c4_length_dispatch [33]).2.2.2.2 (by decide),
   (c4_length_dispatch [54, 100, 100, 99, 102, 54, 100, 97]).1 rfl⟩

/-- C5: integer round-trips.  For every `u32` value `v`,
`from_u32(v).as_u32() = v` and `from_u32_be(v).as_u32_be() = v`, and the
mixed-direction round-trips byte-reverse `v`; likewise for every `u64`
value and `VolumeId64`. -/
theorem c5_integer_roundtrips :
    (∀ v : Nat, v < 4294967296 →
      (VolumeId32.from_u32 v).as_u32 = v ∧
      (VolumeId32.from_u32_be v).as_u32_be = v ∧
      (VolumeId32.from_u32 v).as_u32_be = bswap32 v ∧
      (VolumeId32.from_u32_be v).as_u32 = bswap32 v) ∧
    (∀ v : Nat, v < 18446744073709551616 →
      (VolumeId64.from_u64 v).as_u64 = v ∧
      (VolumeId64.from_u64_be v).as_u64_be = v ∧
      (VolumeId64.from_u64 v).as_u64_be = bswap64 v ∧
      (VolumeId64.from_u64_be v).as_u64 = bswap64 v) := by
  constructor
  · intro v hv
    refine ⟨?_, ?_, ?_, ?_⟩ <;>
      simp only [VolumeId32.from_u32, VolumeId32.from_u32_be, VolumeId32.as_u32,
        VolumeId32.as_u32_be, VolumeId32.from_bytes, bswap32] <;>
      omega
  · intro v hv
    refine ⟨?_, ?_, ?_, ?_⟩ <;>
      simp only [VolumeId64.from_u64, VolumeId64.from_u64_be, VolumeId64.as_u64,
        VolumeId64.as_u64_be, VolumeId64.from_bytes, bswap64] <;>
      omega

/-- Witness for C5 at `v = 0xa1a2a3a4` and `v = 0xa1a2a3a4a5a6a7a8`. -/
theorem c5_integer_roundtrips_witness :
    (VolumeId32.from_u32 0xa1a2a3a4).as_u32 = 0xa1a2a3a4 ∧
    (VolumeId64.from_u64 0xa1a2a3a4a5a6a7a8).as_u64_be =
      bswap64 0xa1a2a3a4a5a6a7a8 :=
  ⟨(c5_integer_roundtrips.1 0xa1a2a3a4 (by norm_num)).1,
   (c5_integer_roundtrips.2 0xa1a2a3a4a5a6a7a8 (by norm_num)).2.2.1⟩

/-- C6: `from_bytes_be` stores the byte-reversed array, and
`from_bytes_be(b).to_bytes_be() = b` for every width-appropriate byte
array, for both identifier types. -/
theorem c6_bytes_be_roundtrip :
    (∀ b : Bytes4,
      (VolumeId32.from_bytes_be b).into_bytes = ⟨b.b3, b.b2, b.b1, b.b0⟩ ∧
      (VolumeId32.from_bytes_be b).to_bytes_be = b) ∧
    (∀ b : Bytes8,
      (VolumeId64.from_bytes_be b).into_bytes =
        ⟨b.c7, b.c6, b.c5, b.c4, b.c3, b.c2, b.c1, b.c0⟩ ∧
      (VolumeId64.from_bytes_be b).to_bytes_be = b) := by
  constructor
  · intro b
    cases b
    exact ⟨rfl, rfl⟩
  · intro b
    cases b
    exact ⟨rfl, rfl⟩

/-- C7: `nil().is_nil()` and `max().is_max()` hold, and for every
identifier value (byte entries in `u8` range), `is_nil` holds iff every
stored byte is `0x00` and `is_max` holds iff every stored byte is
`0xff`, for both widths. -/
theorem c7_nil_max :
    VolumeId32.nil.is_nil = true ∧ VolumeId32.max.is_max = true ∧
    VolumeId64.nil.is_nil = true ∧ VolumeId64.max.is_max = true ∧
    (∀ b : Bytes4, b.InRange →
      ((VolumeId32.from_bytes b).is_nil = true ↔ b = ⟨0, 0, 0, 0⟩) ∧
      ((VolumeId32.from_bytes b).is_max = true ↔ b = ⟨255, 255, 255, 255⟩)) ∧
    (∀ b : Bytes8, b.InRange →
      ((VolumeId64.from_bytes b).is_nil = true ↔ b = ⟨0, 0, 0, 0, 0, 0, 0, 0⟩) ∧
      ((VolumeId64.from_bytes b).is_max = true ↔
        b = ⟨255, 255, 255, 255, 255, 255, 255, 255⟩)) := by
  refine ⟨by decide, by decide, by decide, by decide, ?_, ?_⟩
  · rintro ⟨b0, b1, b2, b3⟩ ⟨h0, h1, h2, h3⟩
    have g0 : b0 < 256 := h0
    have g1 : b1 < 256 := h1
    have g2 : b2 < 256 := h2
    have g3 : b3 < 256 := h3
    constructor <;>
      · simp [VolumeId32.is_nil, VolumeId32.is_max, VolumeId32.as_u32,
          VolumeId32.from_bytes, Bytes4.mk.injEq]
        omega
  · rintro ⟨c0, c1, c2, c3, c4, c5, c6, c7⟩ ⟨h0, h1, h2, h3, h4, h5, h6, h7⟩
    have g0 : c0 < 256 := h0
    have g1 : c1 < 256 := h1
    have g2 : c2 < 256 := h2
    have g3 : c3 < 256 := h3
    have g4 : c4 < 256 := h4
    have g5 : c5 < 256 := h5
    have g6 : c6 < 256 := h6
    have g7 : c7 < 256 := h7
    constructor <;>
      · simp [VolumeId64.is_nil, VolumeId64.is_max, VolumeId64.as_u64,
          VolumeId64.from_bytes, Bytes8.mk.injEq]
        omega

/-- Witness for C7 at the all-zero and all-`0xff` arrays. -/
theorem c7_nil_max_witness :
    ((VolumeId32.from_bytes ⟨0, 0, 0, 0⟩).is_nil = true ↔
      (⟨0, 0, 0, 0⟩ : Bytes4) = ⟨0, 0, 0, 0⟩) ∧
    ((VolumeId64.from_bytes ⟨255, 255, 255, 255, 255, 255, 255, 255⟩).is_max = true ↔
      (⟨255, 255, 255, 255, 255, 255, 255, 255⟩ : Bytes8) =
        ⟨255, 255, 255, 255, 255, 255, 255, 255⟩) :=
  ⟨(c7_nil_max.2.2.2.2.1 ⟨0, 0, 0, 0⟩ (by norm_num [Bytes4.InRange])).1,
   (c7_nil_max.2.2.2.2.2 ⟨255, 255, 255, 255, 255, 255, 255, 255⟩
      (by norm_num [Bytes8.InRange])).2⟩

/-- C8: for each formatter (SimpleId32, HyphenatedId32, SimpleId64) and
every caller buffer shorter than that formatter's `LENGTH`,
`encode_lower` and `encode_upper` take the fatal precondition path (the
`assert!` panic) rather than returning a recoverable error. -/
theorem c8_short_buffer_panics :
    ∀ (v32 : VolumeId32) (v64 : VolumeId64) (buffer : List Nat),
      (buffer.length < SimpleId32.LENGTH →
        SimpleId32.encode_lower ⟨v32⟩ buffer = .assertFail ∧
        SimpleId32.encode_upper ⟨v32⟩ buffer = .assertFail) ∧
      (buffer.length < HyphenatedId32.LENGTH →
        HyphenatedId32.encode_lower ⟨v32⟩ buffer = .assertFail ∧
        HyphenatedId32.encode_upper ⟨v32⟩ buffer = .assertFail) ∧
      (buffer.length < SimpleId64.LENGTH →
        SimpleId64.encode_lower ⟨v64⟩ buffer = .assertFail ∧
        SimpleId64.encode_upper ⟨v64⟩ buffer = .assertFail) := by
  intro v32 v64 buffer
  refine ⟨fun h => ⟨?_, ?_⟩, fun h => ⟨?_, ?_⟩, fun h => ⟨?_, ?_⟩⟩ <;>
    · first
      | (simp only [SimpleId32.encode_lower, SimpleId32.encode_upper,
          SimpleId32.encodeImpl]
         rw [if_pos (by omega)])
      | (simp only [HyphenatedId32.encode_lower, HyphenatedId32.encode_upper,
          HyphenatedId32.encodeImpl]
         rw [if_pos (by omega)])
      | (simp only [SimpleId64.encode_lower, SimpleId64.encode_upper,
          SimpleId64.encodeImpl]
         rw [if_pos (by omega)])

/-- Witness for C8 at buffers of length `LENGTH - 1` (7, 8 and 15). -/
theorem c8_short_buffer_panics_witness :
    SimpleId32.encode_lower ⟨VolumeId32.nil⟩ (List.replicate 7 0) = .assertFail ∧
    HyphenatedId32.encode_upper ⟨VolumeId32.nil⟩ (List.replicate 8 0) = .assertFail ∧
    SimpleId64.encode_lower ⟨VolumeId64.nil⟩ (List.replicate 15 0) = .assertFail :=
  ⟨((c8_short_buffer_panics VolumeId32.nil VolumeId64.nil (List.replicate 7 0)).1
      (by decide)).1,
   ((c8_short_buffer_panics VolumeId32.nil VolumeId64.nil (List.replicate 8 0)).2.1
      (by decide)).2,
   ((c8_short_buffer_panics VolumeId32.nil VolumeId64.nil (List.replicate 15 0)).2.2
      (by decide)).1⟩

/-- C1 (refuted on the code): the 32-bit Simple formatter cannot encode
any identifier at all — its copy loop runs `while i < 16` over the
4-byte source, so the read `src[4]` is out of bounds and the encode
panics even with an adequate buffer.  Evaluated here at the failing
input `[0xa1, 0xa2, 0xa3, 0xa4]`: the formatting routine panics
(returns `none`) in both cases, so encode-then-parse cannot return the
original bytes. -/
theorem c1_simple32_encode_panics :
    format_simpleid32 ⟨0xa1, 0xa2, 0xa3, 0xa4⟩ false = none ∧
    format_simpleid32 ⟨0xa1, 0xa2, 0xa3, 0xa4⟩ true = none ∧
    SimpleId32.encode_lower ⟨⟨⟨0xa1, 0xa2, 0xa3, 0xa4⟩⟩⟩ (List.replicate 8 0) =
      .panicked ∧
    SimpleId32.encode_upper ⟨⟨⟨0xa1, 0xa2, 0xa3, 0xa4⟩⟩⟩ (List.replicate 8 0) =
      .panicked := by
  refine ⟨by decide, by decide, by decide, by decide⟩

end FatVolumeId
